import Mathlib

/-!
Shallow embedding of `src/fwf_handler.py` (class `FWFHandler`): the tape
data model, the fixed-width line slicer used by `to_csv` and
`infer_sql_dtypes`, the csv conversion loop, the type-inference sampler,
and the bulk-load statement rendering of `to_mysql_table_script`.

Conventions of the embedding:
* A Python string is a `List Char` (the repository assumes one byte per
  character).  A file opened for reading is the list of the strings its
  successive `readline()` calls return (the trailing newline stays inside
  each element, exactly as `readline` yields it).
* The tape is an insertion-ordered association list, mirroring the
  `OrderedDict` attribute: assignment to an existing key replaces the
  value in place, assignment to a fresh key appends.
* Offsets are `Nat`, per the tape convention documented in the class
  docstring (start inclusive, end exclusive, character positions).
-/

/-- One tape entry, as built by `add_key` (src line 53):
`dict(location = [start, end], dtype = dtype)`. -/
structure FwfField where
  location : Nat × Nat
  dtype : Option String
deriving DecidableEq

/-- The `tape` attribute: an insertion-ordered mapping from feature name
to `Field`. -/
abbrev Tape := List (String × FwfField)

/-- `key in self.tape` for the ordered mapping. -/
def tapeHasKey (t : Tape) (k : String) : Bool :=
  t.any (fun p => p.1 == k)

/-- `self.tape[key]` lookup (first entry with the key). -/
def tapeGet (t : Tape) (k : String) : Option FwfField :=
  (t.find? (fun p => p.1 == k)).map Prod.snd

/-- `self.tape.keys()` in order. -/
def tapeKeys (t : Tape) : List String :=
  t.map Prod.fst

/-- Python dict assignment `self.tape[key] = v`: an existing key keeps its
position and gets the new value; a fresh key is appended. -/
def tapeSet (t : Tape) (k : String) (v : FwfField) : Tape :=
  if tapeHasKey t k then t.map (fun p => if p.1 == k then (k, v) else p)
  else t ++ [(k, v)]

/-- Embeds `FWFHandler.add_key` (src lines 39-54) on the path where all
arguments are supplied (the interactive prompts for missing arguments are
out of scope per the spec).  The body is a single dict assignment plus a
print; there is no validation of `start`/`end` whatsoever. -/
def add_key (t : Tape) (key : String) (start stop : Nat) (dtype : Option String) : Tape :=
  tapeSet t key { location := (start, stop), dtype := dtype }

/-- Embeds `FWFHandler.alter_key_location` (src lines 56-74) with both
`start` and `end` supplied: if the key is absent it only prints a message
and leaves the tape unchanged; otherwise it delegates to `add_key` with
`dtype` left at its default `None`.  (Line 67 unpacks the old entry into
two names; a `Field` dict has exactly two keys, so that statement succeeds
and its results feed only the interactive prompts, which are skipped when
both arguments are given.) -/
def alter_key_location (t : Tape) (key : String) (start stop : Nat) : Tape :=
  if tapeHasKey t key then add_key t key start stop none else t

/-- The slice expression `line[slice(*s)]` with `s = [a, b]` (src lines
129 and 163) for non-negative bounds: Python clamps both bounds to the
line length and yields the empty string when the range is empty or starts
past the end. -/
def lineSlice (line : List Char) (a b : Nat) : List Char :=
  (line.drop a).take (b - a)

/-- One decoded row: the generator `(line[slice(*s)] for s in locs)` of
`to_csv` (src lines 113 and 129), with `locs` the tape's location pairs in
tape order. -/
def decode_line (t : Tape) (line : List Char) : List (List Char) :=
  t.map (fun p => lineSlice line p.2.location.1 p.2.location.2)

/-- Result of `to_csv`: the rows written to the sink, the line count shown
by the final `"Finished at line %s"` print (src line 135, which prints
`line_n - 1`), and the Python return value (src line 136). -/
structure ToCsvResult where
  rows : List (List (List Char))
  finalCount : Nat
  ret : String
deriving DecidableEq

/-- The `while line:` loop of `to_csv` (src lines 121-132): one output row
per input line, counting lines as it goes. -/
def to_csv_loop (t : Tape) : List (List Char) → List (List (List Char)) × Nat
  | [] => ([], 0)
  | l :: rest =>
      let r := to_csv_loop t rest
      (decode_line t l :: r.1, r.2 + 1)

/-- Embeds `FWFHandler.to_csv` (src lines 94-136): writes the header row
of feature names, then one decoded row per input line, prints the final
line count, and returns the csv path. -/
def to_csv (t : Tape) (fwfLines : List (List Char)) (csv_path : String) : ToCsvResult :=
  let r := to_csv_loop t fwfLines
  { rows := (t.map (fun p => p.1.toList)) :: r.1
    finalCount := r.2
    ret := csv_path }

/-- Embeds `FWFHandler.infer_sql_dtypes` (src lines 138-191).
`key_locs` is the `key_loc_dict` argument (feature name paired with its
location pair), `fwfLines` the source file, `nlines` the `nlines_infer`
budget (a Python int, so possibly non-positive).
Control flow of the source:
* line 156: if there are no locations the empty dict is returned before
  the source file is opened;
* lines 158-165: otherwise the file is opened and the `readline` loop
  collects the sliced rows of the first `max nlines 0` lines (the loop
  runs while a line was read and `lidx <= nlines`);
* lines 168-190: the per-column loop first filters blank values (line
  170) and then evaluates `self.tape[key]['location']` (line 171) — but
  the function is a `@staticmethod` with no `self` parameter, so the very
  first iteration raises `NameError`.  The loop body runs iff at least one
  column was collected, i.e. iff some line was sampled.
The `Bool` component records whether the source file was opened (and hence
read), the `Except` component the returned dict or the raised exception. -/
def infer_sql_dtypes (key_locs : List (String × (Nat × Nat))) (fwfLines : List (List Char))
    (nlines : Int) : Except String (List (String × String)) × Bool :=
  if key_locs.isEmpty then (Except.ok [], false)
  else
    let sampled := (fwfLines.take nlines.toNat).map
      (fun l => key_locs.map (fun p => lineSlice l p.2.1 p.2.2))
    if sampled.isEmpty then (Except.ok [], true)
    else (Except.error "NameError: name self is not defined (src line 171)", true)

/-- The minimal json value universe needed by the tape (objects keep key
order, matching `json.dump` of an `OrderedDict` and `json.load` into an
insertion-ordered dict). -/
inductive Jval where
  | null : Jval
  | jnum : Int → Jval
  | jstr : String → Jval
  | jarr : List Jval → Jval
  | jobj : List (String × Jval) → Jval

/-- The json shape of one tape entry as `save_tape_as_json` serializes it:
`add_key` stores `{'location': [start, end], 'dtype': dtype}` and
`json.dump` maps the list to an array and `None` to `null`. -/
def field_to_json (f : FwfField) : Jval :=
  Jval.jobj
    [("location", Jval.jarr [Jval.jnum f.location.1, Jval.jnum f.location.2]),
     ("dtype", match f.dtype with | none => Jval.null | some s => Jval.jstr s)]

/-- Embeds `FWFHandler.save_tape_as_json` (src lines 88-92): the json text
written is the serialization of the tape mapping in tape order. -/
def save_tape_as_json (t : Tape) : Jval :=
  Jval.jobj (t.map (fun p => (p.1, field_to_json p.2)))

/-- Embeds `FWFHandler.from_json` (src lines 33-37) composed with
`__init__` (src lines 27-31) on the parsed json value: a dict is taken
wholesale as the new tape (raw values, no validation); any other parsed
value fails the `isinstance(tape, dict)` test and silently yields an
empty tape. -/
def from_json (j : Jval) : List (String × Jval) :=
  match j with
  | Jval.jobj kvs => kvs
  | _ => []

/-- Reads one serialized tape entry back into a `Field` (the shape
`save_tape_as_json` produces); any other shape is rejected. -/
def field_of_json : Jval → Option FwfField
  | Jval.jobj [("location", Jval.jarr [Jval.jnum (Int.ofNat a), Jval.jnum (Int.ofNat b)]),
               ("dtype", d)] =>
      match d with
      | Jval.null => some { location := (a, b), dtype := none }
      | Jval.jstr s => some { location := (a, b), dtype := some s }
      | _ => none
  | _ => none

/-- Follows the spec's words for the offset translation of §4.4:
`sql_start = start + 1`. -/
def spec_sql_start (f : FwfField) : Int :=
  (f.location.1 : Int) + 1

/-- Follows the spec's words for the offset translation of §4.4:
`sql_length = end - start`. -/
def spec_sql_length (f : FwfField) : Int :=
  (f.location.2 : Int) - (f.location.1 : Int)

/-- One `SET` clause of the bulk-load statement (src lines 229-231):
`"%s = SUBSTR(@var1,%d,%d)" % (k, v['location'][0]+1,
v['location'][1]-v['location'][0])`. -/
def substr_clause (k : String) (f : FwfField) : String :=
  k ++ " = SUBSTR(@var1," ++ toString ((f.location.1 : Int) + 1) ++ ","
    ++ toString ((f.location.2 : Int) - (f.location.1 : Int)) ++ ")"

/-- The single-quote character (code point 39) that wraps the infile path
in the format string at src line 228, written numerically. -/
def sglq : String :=
  String.singleton (Char.ofNat 39)

/-- The `load_infile_str` built at src lines 228-232, one clause per tape
entry in tape order. -/
def load_infile_str (fwf_path table_name : String) (t : Tape) : String :=
  "LOAD DATA INFILE " ++ sglq ++ fwf_path ++ sglq ++ " INTO TABLE " ++ table_name
    ++ "\n\t(@var1)\n\tSET\n\t"
    ++ String.intercalate ",\n\t" (t.map (fun p => substr_clause p.1 p.2))
    ++ ";"

theorem to_csv_loop_eq (t : Tape) (ls : List (List Char)) :
    to_csv_loop t ls = (ls.map (decode_line t), ls.length) := by
  induction ls with
  | nil => rfl
  | cons l rest ih => simp [to_csv_loop, ih]

theorem tapeHasKey_cons (p : String × FwfField) (rest : Tape) (k : String) :
    tapeHasKey (p :: rest) k = ((p.1 == k) || tapeHasKey rest k) := by
  simp [tapeHasKey]

theorem find?_replace_self (t : Tape) (k : String) (v : FwfField)
    (h : tapeHasKey t k = true) :
    (t.map (fun p => if p.1 == k then (k, v) else p)).find? (fun p => p.1 == k)
      = some (k, v) := by
  induction t with
  | nil => exact absurd h (by simp [tapeHasKey])
  | cons p rest ih =>
    by_cases hp : p.1 = k
    · rw [List.map_cons, if_pos (by simp [hp])]
      exact List.find?_cons_of_pos _ (by simp)
    · have hpb : (p.1 == k) = false := beq_eq_false_iff_ne.mpr hp
      rw [List.map_cons, if_neg (by simp [hpb]), List.find?_cons_of_neg _ (by simp [hpb])]
      rw [tapeHasKey_cons, hpb, Bool.false_or] at h
      exact ih h

theorem find?_append_self (t : Tape) (k : String) (v : FwfField)
    (h : tapeHasKey t k = false) :
    (t ++ [(k, v)]).find? (fun p => p.1 == k) = some (k, v) := by
  induction t with
  | nil => exact List.find?_cons_of_pos _ (by simp)
  | cons p rest ih =>
    rw [tapeHasKey_cons, Bool.or_eq_false_iff] at h
    rw [List.cons_append, List.find?_cons_of_neg _ (by simp [h.1])]
    exact ih h.2

theorem tapeGet_tapeSet_self (t : Tape) (k : String) (v : FwfField) :
    tapeGet (tapeSet t k v) k = some v := by
  unfold tapeSet
  by_cases h : tapeHasKey t k = true
  · rw [if_pos h]
    unfold tapeGet
    rw [find?_replace_self t k v h]
    rfl
  · rw [if_neg h]
    unfold tapeGet
    rw [find?_append_self t k v (by simpa using h)]
    rfl

theorem tapeGet_some_hasKey (t : Tape) (k : String) (f : FwfField)
    (h : tapeGet t k = some f) : tapeHasKey t k = true := by
  unfold tapeGet at h
  rcases Option.map_eq_some'.mp h with ⟨p, hfind, _⟩
  have hmem := List.mem_of_find?_eq_some hfind
  have hpred := List.find?_some hfind
  unfold tapeHasKey
  exact List.any_eq_true.mpr ⟨p, hmem, hpred⟩

theorem tapeKeys_tapeSet_mem (t : Tape) (k : String) (v : FwfField)
    (h : tapeHasKey t k = true) : tapeKeys (tapeSet t k v) = tapeKeys t := by
  unfold tapeSet
  rw [if_pos h]
  unfold tapeKeys
  rw [List.map_map]
  refine List.map_congr_left ?_
  intro p _
  by_cases hp : p.1 = k
  · simp [hp]
  · simp [hp]

theorem tapeKeys_tapeSet_new (t : Tape) (k : String) (v : FwfField)
    (h : tapeHasKey t k = false) : tapeKeys (tapeSet t k v) = tapeKeys t ++ [k] := by
  unfold tapeSet
  rw [if_neg (by simp [h])]
  simp [tapeKeys]

theorem field_of_json_to_json (f : FwfField) : field_of_json (field_to_json f) = some f := by
  obtain ⟨⟨a, b⟩, d⟩ := f
  cases d <;> rfl

/-- C1: for every tape, every field of the tape and every line, the value
the decoder produces at the field's position is exactly the Python slice
`line[start:end]`; that slice never fails, has length at most
`end - start`, equals the exact substring (and has full length
`end - start`) when the line is long enough, and is empty when the line is
shorter than `start`.  The extraction is the pure function `lineSlice` of
the line and the field's offsets alone. -/
theorem decode_line_slice_spec (t : Tape) (line : List Char) (i : Nat)
    (h : i < t.length) :
    (decode_line t line)[i]? = some (lineSlice line t[i].2.location.1 t[i].2.location.2)
    ∧ (lineSlice line t[i].2.location.1 t[i].2.location.2).length
        ≤ t[i].2.location.2 - t[i].2.location.1
    ∧ (t[i].2.location.2 ≤ line.length →
        lineSlice line t[i].2.location.1 t[i].2.location.2
          = (line.take t[i].2.location.2).drop t[i].2.location.1)
    ∧ (t[i].2.location.1 ≤ t[i].2.location.2 → t[i].2.location.2 ≤ line.length →
        (lineSlice line t[i].2.location.1 t[i].2.location.2).length
          = t[i].2.location.2 - t[i].2.location.1)
    ∧ (line.length < t[i].2.location.1 →
        lineSlice line t[i].2.location.1 t[i].2.location.2 = []) := by
  refine ⟨?_, ?_, ?_, ?_, ?_⟩
  · rw [decode_line, List.getElem?_map, List.getElem?_eq_getElem h]
    rfl
  · simp only [lineSlice, List.length_take, List.length_drop]
    omega
  · intro _
    simp [lineSlice, List.drop_take]
  · intro hab hb
    simp only [lineSlice, List.length_take, List.length_drop]
    omega
  · intro ha
    simp [lineSlice, List.drop_eq_nil_of_le (Nat.le_of_lt ha)]

theorem decode_line_slice_spec_witness :
    (decode_line [("id", { location := (0, 4), dtype := none })] ['1', '0', '0', '1', 'A'])[0]?
      = some (lineSlice ['1', '0', '0', '1', 'A'] 0 4)
    ∧ (lineSlice ['1', '0', '0', '1', 'A'] 0 4).length ≤ 4 - 0
    ∧ ((4 : Nat) ≤ 5 →
        lineSlice ['1', '0', '0', '1', 'A'] 0 4
          = (['1', '0', '0', '1', 'A'].take 4).drop 0)
    ∧ ((0 : Nat) ≤ 4 → (4 : Nat) ≤ 5 →
        (lineSlice ['1', '0', '0', '1', 'A'] 0 4).length = 4 - 0)
    ∧ ((5 : Nat) < 0 → lineSlice ['1', '0', '0', '1', 'A'] 0 4 = []) := by
  simpa using decode_line_slice_spec
    [("id", { location := (0, 4), dtype := none })] ['1', '0', '0', '1', 'A'] 0 (by decide)

/-- C3: `to_csv` on an N-line input writes exactly N + 1 rows: the header
of field names in tape order comes first, then, in input order, the
decoded row of each input line; an empty input yields the header row
only. -/
theorem to_csv_row_structure (t : Tape) (fwfLines : List (List Char)) (path : String) :
    (to_csv t fwfLines path).rows.length = fwfLines.length + 1
    ∧ (to_csv t fwfLines path).rows
        = (t.map (fun p => p.1.toList)) :: fwfLines.map (decode_line t) := by
  constructor
  · simp [to_csv, to_csv_loop_eq]
  · simp [to_csv, to_csv_loop_eq]

/-- C8 (amended): `to_csv` returns only the csv path; the number of lines
processed appears in the final progress print, not in the return value. -/
theorem to_csv_returns_path_only (t : Tape) (fwfLines : List (List Char)) (path : String) :
    (to_csv t fwfLines path).ret = path
    ∧ (to_csv t fwfLines path).finalCount = fwfLines.length := by
  constructor
  · rfl
  · simp [to_csv, to_csv_loop_eq]

/-- C8 is false on the code: the value `to_csv` returns is the csv path
alone.  Two conversions that process different numbers of lines (one line
here, zero lines there) return identical values, so the return cannot
carry the processed line count — which does differ, as the final print
shows. -/
theorem to_csv_return_carries_no_count :
    (to_csv [("id", { location := (0, 4), dtype := none })] [['1', '0', '0', '1']] "out.csv").ret
      = (to_csv [("id", { location := (0, 4), dtype := none })] [] "out.csv").ret
    ∧ (to_csv [("id", { location := (0, 4), dtype := none })] [['1', '0', '0', '1']] "out.csv").finalCount
      ≠ (to_csv [("id", { location := (0, 4), dtype := none })] [] "out.csv").finalCount := by
  exact ⟨rfl, by decide⟩

/-- C4: the bulk-load statement consists of one `SET` clause per field in
tape order, and each clause's `SUBSTR` begins at the 1-based position
`start + 1` with length `end - start` — the spec's
`sql_start`/`sql_length` translation; in particular a field with start 4
and end 14 renders position 5 and length 10. -/
theorem load_infile_offsets (fwf_path table_name : String) (t : Tape) :
    load_infile_str fwf_path table_name t
      = "LOAD DATA INFILE " ++ sglq ++ fwf_path ++ sglq ++ " INTO TABLE " ++ table_name
          ++ "\n\t(@var1)\n\tSET\n\t"
          ++ String.intercalate ",\n\t"
              (t.map (fun p => p.1 ++ " = SUBSTR(@var1," ++ toString (spec_sql_start p.2)
                ++ "," ++ toString (spec_sql_length p.2) ++ ")"))
          ++ ";"
    ∧ substr_clause "name" { location := (4, 14), dtype := none }
        = "name = SUBSTR(@var1,5,10)" := by
  exact ⟨rfl, by decide⟩

/-- C5 is false on the code: `add_key` performs no range validation at
all; with end ≤ start (start 5, end 3 here) it succeeds and the tape is
changed, where the claim demands an `InvalidRangeError` and an unchanged
tape. -/
theorem add_key_accepts_empty_range :
    add_key [] "x" 5 3 none = [("x", { location := (5, 3), dtype := none })] := by
  rfl

/-- C5 (amended): `add_key` never raises a range error: for every start
and end, including end ≤ start, the field is stored under the key — in
place when the key already existed, appended otherwise. -/
theorem add_key_always_stores (t : Tape) (k : String) (s e : Nat) (d : Option String) :
    tapeGet (add_key t k s e d) k = some { location := (s, e), dtype := d }
    ∧ (tapeHasKey t k = true → tapeKeys (add_key t k s e d) = tapeKeys t)
    ∧ (tapeHasKey t k = false → tapeKeys (add_key t k s e d) = tapeKeys t ++ [k]) := by
  refine ⟨tapeGet_tapeSet_self t k _, ?_, ?_⟩
  · intro h
    exact tapeKeys_tapeSet_mem t k _ h
  · intro h
    exact tapeKeys_tapeSet_new t k _ h

theorem add_key_always_stores_witness :
    tapeGet (add_key [] "x" 7 2 none) "x" = some { location := (7, 2), dtype := none }
    ∧ tapeKeys (add_key [] "x" 7 2 none) = tapeKeys [] ++ ["x"] := by
  exact ⟨(add_key_always_stores [] "x" 7 2 none).1,
    (add_key_always_stores [] "x" 7 2 none).2.2 (by decide)⟩

/-- C10: altering the location of an existing key with explicit start and
end replaces the entry through `add_key`, whose `dtype` argument defaults
to `None`, so the field's previously declared or inferred type is reset to
`None` as a side effect of the location change. -/
theorem alter_key_location_resets_dtype (t : Tape) (k : String) (s e : Nat)
    (f : FwfField) (hget : tapeGet t k = some f) (_hdt : f.dtype.isSome = true) :
    tapeGet (alter_key_location t k s e) k
      = some { location := (s, e), dtype := none } := by
  unfold alter_key_location
  rw [if_pos (tapeGet_some_hasKey t k f hget)]
  exact tapeGet_tapeSet_self t k _

theorem alter_key_location_resets_dtype_witness :
    tapeGet (alter_key_location [("k", { location := (0, 2), dtype := some "INT" })] "k" 1 3) "k"
      = some { location := (1, 3), dtype := none } := by
  exact alter_key_location_resets_dtype
    [("k", { location := (0, 2), dtype := some "INT" })] "k" 1 3
    { location := (0, 2), dtype := some "INT" } (by decide) (by decide)

/-- C7 (amended, round-trip half): saving the tape and re-loading the
saved json yields entries with the same names in the same order, each of
whose values decodes back to exactly the original field — offsets and
declared type included. -/
theorem tape_roundtrip (t : Tape) (_hne : t ≠ []) :
    (from_json (save_tape_as_json t)).map Prod.fst = tapeKeys t
    ∧ (from_json (save_tape_as_json t)).map (fun p => field_of_json p.2)
        = t.map (fun p => some p.2) := by
  constructor
  · simp [from_json, save_tape_as_json, tapeKeys]
  · simp only [from_json, save_tape_as_json, List.map_map]
    refine List.map_congr_left ?_
    intro p _
    exact field_of_json_to_json p.2

theorem tape_roundtrip_witness :
    ([("id", { location := (0, 4), dtype := some "INT" })] : Tape) ≠ []
    ∧ (from_json (save_tape_as_json
          [("id", { location := (0, 4), dtype := some "INT" })])).map Prod.fst
        = tapeKeys [("id", { location := (0, 4), dtype := some "INT" })]
    ∧ (from_json (save_tape_as_json
          [("id", { location := (0, 4), dtype := some "INT" })])).map
            (fun p => field_of_json p.2)
        = [("id", { location := (0, 4), dtype := some "INT" })].map (fun p => some p.2) := by
  refine ⟨by decide, ?_⟩
  exact tape_roundtrip [("id", { location := (0, 4), dtype := some "INT" })] (by decide)

/-- C7 is false on the code in its failure half: loading a source that
parses as json but is not an object raises nothing — the
`isinstance(tape, dict)` test in `__init__` silently yields an empty tape
(no `MalformedTapeError` exists anywhere in the code). -/
theorem from_json_malformed_is_silent :
    from_json (Jval.jstr "junk") = [] := by
  rfl

/-- C9 (amended): `infer_sql_dtypes` returns the empty dict both when the
tape has no fields and when the sample budget is non-positive, but only
the no-fields case returns before the source file is opened: with a
non-positive budget and at least one field the source is still opened and
a first line read, although no sampled line is retained. -/
theorem infer_empty_guards (kl : List (String × (Nat × Nat)))
    (fwfLines : List (List Char)) (n : Int) :
    (kl = [] → infer_sql_dtypes kl fwfLines n = (Except.ok [], false))
    ∧ (n ≤ 0 → (infer_sql_dtypes kl fwfLines n).1 = Except.ok []
        ∧ (infer_sql_dtypes kl fwfLines n).2 = !kl.isEmpty) := by
  constructor
  · intro h
    subst h
    rfl
  · intro hn
    have h0 : n.toNat = 0 := Int.toNat_of_nonpos hn
    by_cases hk : kl.isEmpty = true
    · simp [infer_sql_dtypes, hk]
    · simp [infer_sql_dtypes, hk, h0]

theorem infer_empty_guards_witness :
    infer_sql_dtypes [] [['a']] 5 = (Except.ok [], false)
    ∧ (infer_sql_dtypes [("k", (0, 1))] [['a']] 0).1 = Except.ok []
    ∧ (infer_sql_dtypes [("k", (0, 1))] [['a']] 0).2
        = !(List.isEmpty [("k", (0, 1))]) := by
  refine ⟨(infer_empty_guards [] [['a']] 5).1 rfl, ?_, ?_⟩
  · exact ((infer_empty_guards [("k", (0, 1))] [['a']] 0).2 (by decide)).1
  · exact ((infer_empty_guards [("k", (0, 1))] [['a']] 0).2 (by decide)).2

/-- C9 is false on the code in its sample-size half: with one field and a
non-positive sample budget the call still opens and reads the source file
(second component `true`), though it does return the empty dict. -/
theorem infer_nonpositive_budget_touches_source :
    infer_sql_dtypes [("k", (0, 2))] [['a', 'b']] 0 = (Except.ok [], true) := by
  rfl

/-- C2 concerns code that cannot run: on the input below — one untyped
field of width 2 and a one-line file whose sampled value "12" the claim
says must classify as the integer type — `infer_sql_dtypes` raises
`NameError` instead, because the classification loop reads `self.tape`
inside a staticmethod (src line 171). -/
theorem infer_classification_raises_nameerror :
    infer_sql_dtypes [("k", (0, 2))] [['1', '2']] 1000
      = (Except.error "NameError: name self is not defined (src line 171)", true) := by
  rfl
